import Mathlib

/-!
Shallow embedding of the RBAC command-authorization core of the repository
(`auth-cli/main.py`, `auth-api/auth_cli.py`, `auth-api/main.py`).

The embedding models, faithfully to the Python source:
* the decision function `verificar_permissao_cli` (identical in
  `auth-cli/main.py` and `auth-api/auth_cli.py`);
* the HTTP-API decision function `check_permission` and the JWT principal
  extraction `get_current_user` from `auth-api/main.py`, with the external
  role-store table abstracted as a lookup function;
* the permission resolver `get_permissions_for_roles` (identical in both CLI
  files), with the DynamoDB `roles` table abstracted as a lookup function and
  the `ClientError` exception modelled as an explicit lookup outcome;
* the PartiQL statement parser `analisar_partiql` from `auth-api/auth_cli.py`,
  including the possibility of an *uncaught* `IndexError` as an explicit
  outcome constructor;
* the AWS-CLI verb parser `analisar_aws_cli_comando` from `auth-cli/main.py`
  together with its helpers `split_cli_command` (a model of Python's
  `shlex.split` in POSIX mode) and `to_camel_case`.

Python string primitives (`str.lower`, `str.upper`, `str.strip`,
`re.split(r"\s+", ...)`, `shlex.split`) are modelled over ASCII, which covers
every string the source manipulates.  `json.loads` decoding of the four
structured payload flags in the verb parser is not modelled: the source stores
either the decoded value or the raw string under the same key, so the key set
of the argument map and the `TableName` string (never one of the four JSON
flags) are unaffected; no claim inspects decoded payload values.
-/

/-- The single-quote character, `chr 39`. -/
def squoteChar : Char := Char.ofNat 39

/-- Python `\s` / `str.strip()` whitespace over ASCII: space, tab, newline,
carriage return, vertical tab, form feed. -/
def isPyWs (c : Char) : Bool :=
  c = ' ' || c = '\t' || c = '\n' || c = '\r' || c = '\x0b' || c = '\x0c'

/-- Membership in `shlex.whitespace`: space, tab, carriage return, newline. -/
def isShlexWs (c : Char) : Bool :=
  c = ' ' || c = '\t' || c = '\r' || c = '\n'

/-- Python `str.lower()` (ASCII). -/
def pyLower (s : String) : String := ⟨s.data.map Char.toLower⟩

/-- Python `str.upper()` (ASCII). -/
def pyUpper (s : String) : String := ⟨s.data.map Char.toUpper⟩

/-- Python `str.split(c)` for a one-character separator: split at every
occurrence of `c`, keeping empty pieces (`"a__b".split(chr 95)` is
`["a", "", "b"]`, `"".split(chr 95)` is `[""]`). -/
def splitOnCharGo (sep : Char) : List Char → String → List String
  | [], cur => [cur]
  | c :: cs, cur =>
    if c = sep then cur :: splitOnCharGo sep cs ""
    else splitOnCharGo sep cs (cur.push c)

/-- Python `str.split(c)`, see `splitOnCharGo`. -/
def splitOnChar (sep : Char) (s : String) : List String := splitOnCharGo sep s.data ""

/-- Python `str.replace(a, b)` for one-character `a` and `b`. -/
def replaceChar (a b : Char) (s : String) : String :=
  ⟨s.data.map (fun c => if c = a then b else c)⟩

/-- Does the string start with two hyphens (Python `str.startswith` at the
two-character literal used by the verb parser)? -/
def startsWithDashDash (t : String) : Bool :=
  match t.data with
  | '-' :: '-' :: _ => true
  | _ => false

/-- Python `str.strip()`: remove leading and trailing whitespace. -/
def pyStrip (s : String) : String :=
  ⟨((s.data.dropWhile isPyWs).reverse.dropWhile isPyWs).reverse⟩

/-- Python `str.strip(c)` for a one-character strip set: remove every leading
and trailing occurrence of `c`. -/
def pyStripChar (c : Char) (s : String) : String :=
  ⟨((s.data.dropWhile (· = c)).reverse.dropWhile (· = c)).reverse⟩

/-- Worker for `reSplitWs`: `cur` is the piece accumulated since the last
whitespace run.  A whitespace character ends the current piece; the whole
run of whitespace is consumed before the next piece starts. -/
def reSplitGo : List Char → String → List String
  | [], cur => [cur]
  | c :: cs, cur =>
    if isPyWs c then
      match cs with
      | [] => [cur, ""]
      | d :: cs' =>
        if isPyWs d then reSplitGo (d :: cs') cur
        else cur :: reSplitGo cs' (String.push "" d)
    else reSplitGo cs (cur.push c)

/-- Python `re.split(r"\s+", s)`: split on maximal whitespace runs; a leading
(resp. trailing) run contributes an empty first (resp. last) element, and
`re.split(r"\s+", "")` is `[""]`. -/
def reSplitWs (s : String) : List String := reSplitGo s.data ""

/-- Lexer state for the `shlex.split` model: outside quotes, inside single
quotes, inside double quotes, after an escape character outside quotes, after
an escape character inside double quotes. -/
inductive LexState
  | normal
  | insideSingle
  | insideDouble
  | escapedNormal
  | escapedDouble
deriving DecidableEq

/-- Emit the current token, if one is in progress, onto the (reversed)
accumulator.  `some ""` (a token produced by empty quotes) is emitted;
`none` (no token in progress) is not. -/
def flushTok (cur : Option String) (acc : List String) : List String :=
  match cur with
  | none => acc
  | some w => w :: acc

/-- State machine for Python `shlex.split(s)` in POSIX mode (the mode used by
`shlex.split`): whitespace separates tokens; single quotes quote everything
verbatim; double quotes allow `\"` and `\\` escapes (a backslash before any
other character is kept literally); a backslash outside quotes escapes the
next character; an unterminated quote or a trailing backslash is a
`ValueError`, modelled as `none`. -/
def shlexGo : LexState → List Char → Option String → List String → Option (List String)
  | .normal, [], cur, acc => some (flushTok cur acc)
  | .insideSingle, [], _, _ => none
  | .insideDouble, [], _, _ => none
  | .escapedNormal, [], _, _ => none
  | .escapedDouble, [], _, _ => none
  | .normal, c :: cs, cur, acc =>
    if isShlexWs c then shlexGo .normal cs none (flushTok cur acc)
    else if c = squoteChar then shlexGo .insideSingle cs (some (cur.getD "")) acc
    else if c = '"' then shlexGo .insideDouble cs (some (cur.getD "")) acc
    else if c = '\\' then shlexGo .escapedNormal cs (some (cur.getD "")) acc
    else shlexGo .normal cs (some ((cur.getD "").push c)) acc
  | .insideSingle, c :: cs, cur, acc =>
    if c = squoteChar then shlexGo .normal cs cur acc
    else shlexGo .insideSingle cs (some ((cur.getD "").push c)) acc
  | .insideDouble, c :: cs, cur, acc =>
    if c = '"' then shlexGo .normal cs cur acc
    else if c = '\\' then shlexGo .escapedDouble cs cur acc
    else shlexGo .insideDouble cs (some ((cur.getD "").push c)) acc
  | .escapedNormal, c :: cs, cur, acc =>
    shlexGo .normal cs (some ((cur.getD "").push c)) acc
  | .escapedDouble, c :: cs, cur, acc =>
    if c = '"' || c = '\\' then shlexGo .insideDouble cs (some ((cur.getD "").push c)) acc
    else shlexGo .insideDouble cs (some (((cur.getD "").push '\\').push c)) acc

/-- Model of `shlex.split(s)`: `none` means the call raised `ValueError`. -/
def shlexSplit (s : String) : Option (List String) :=
  (shlexGo .normal s.data none []).map List.reverse

/-- Embeds `split_cli_command` (`auth-cli/main.py`): `shlex.split`, with a
`ValueError` caught and turned into the empty token list. -/
def split_cli_command (command : String) : List String :=
  (shlexSplit command).getD []

/-- Embeds `verificar_permissao_cli` (`auth-cli/main.py` and `auth-api/auth_cli.py`,
identical in both): RBAC decision for `(table, action)` against a permission
list.  Note the exact-match form lower-cases the table while the
table-wildcard form uses the raw table string, exactly as in the source. -/
def verificar_permissao_cli (permissions : List String) (table action : String) : Bool :=
  let required_permission := pyLower table ++ ":" ++ action
  if permissions.contains "*" then true
  else if permissions.contains required_permission then true
  else if permissions.contains (table ++ ":*") then true
  else false

/-- The `role` claim of a decoded JWT payload: a JSON list, a JSON string, or
anything else (including absent). -/
inductive RoleClaim
  | list (rs : List String)
  | str (s : String)
  | other
deriving DecidableEq

/-- A decoded JWT payload as consumed by `get_current_user`
(`auth-api/main.py`): the `sub` claim (absent modelled as `none`) and the
`role` claim. -/
structure JwtPayload where
  sub : Option String
  role : RoleClaim
deriving DecidableEq

/-- Embeds `UserToken` (`auth-api/main.py`): the authenticated principal, a username
and a single role name. -/
structure UserToken where
  username : String
  role_name : String
deriving DecidableEq

/-- Embeds `get_current_user` (`auth-api/main.py`), modelled from the decoded
payload onward (signature verification is an external collaborator): extracts
the username and a single role name; a list role claim contributes only its
first element; `none` models the 401 `credentials_exception`. -/
def get_current_user (p : JwtPayload) : Option UserToken :=
  let role_name? : Option String :=
    match p.role with
    | .list [] => none
    | .list (r :: _) => some r
    | .str s => some s
    | .other => none
  match role_name?, p.sub with
  | some role_name, some username => some ⟨username, role_name⟩
  | _, _ => none

/-- The `permissions` attribute of a stored role item in the HTTP API: a
DynamoDB list, or an attribute of some other type (which `check_permission`
replaces by the empty list). -/
inductive PermsField
  | list (l : List String)
  | nonList
deriving DecidableEq

/-- A role item as returned by the `roles` table in the HTTP API; the
`permissions` attribute may be absent. -/
structure ApiRoleItem where
  permissions : Option PermsField
deriving DecidableEq

/-- Outcome of a `roles.get_item` point lookup in the HTTP API: an item was
found, no item was found, or the call raised `ClientError`. -/
inductive ApiRoleLookup
  | found (item : ApiRoleItem)
  | notFound
  | clientError
deriving DecidableEq

/-- Result of `check_permission` (`auth-api/main.py`): `allowed` models
`return True`; the other constructors model the raised `HTTPException`s
(403 role-not-found, 403 missing-permission, 500 internal). -/
inductive ApiDecision
  | allowed
  | forbiddenRoleNotFound (role : String)
  | forbiddenMissing (permission : String)
  | internalError
deriving DecidableEq

/-- Embeds `check_permission` (`auth-api/main.py`): looks up the user's single role
in the role store and allows iff the global wildcard or the exact
`table:action` string is present.  No table-wildcard form and no case
normalization, exactly as in the source. -/
def check_permission (store : String → ApiRoleLookup) (user : UserToken)
    (table_name action : String) : ApiDecision :=
  let permission_string := table_name ++ ":" ++ action
  match store user.role_name with
  | .clientError => .internalError
  | .notFound => .forbiddenRoleNotFound user.role_name
  | .found item =>
    let permissions :=
      match item.permissions with
      | some (.list l) => l
      | some .nonList => []
      | none => []
    if permissions.contains "*" || permissions.contains permission_string then .allowed
    else .forbiddenMissing permission_string

/-- The HTTP API's decision for one request: extract the principal from the
token payload (`none` models the 401 rejection), then run
`check_permission`. -/
def api_decision (store : String → ApiRoleLookup) (p : JwtPayload)
    (table_name action : String) : Option ApiDecision :=
  match get_current_user p with
  | none => none
  | some user => some (check_permission store user table_name action)

/-- Outcome of a `roles.get_item` point lookup in the CLI resolver: an item
with a `permissions` list was found, no item was found, or the call raised
`ClientError`. -/
inductive RoleLookup
  | found (perms : List String)
  | notFound
  | clientError
deriving DecidableEq

/-- The permission set contributed by one role lookup outcome. -/
def permsOf : RoleLookup → Finset String
  | .found ps => ps.toFinset
  | .notFound => ∅
  | .clientError => ∅

/-- Is the lookup outcome a found role item? -/
def isFound : RoleLookup → Bool
  | .found _ => true
  | _ => false

/-- The `for` loop of `get_permissions_for_roles`: one lookup per role,
accumulating a set union.  A `ClientError` raised by a lookup is caught by
the `except` clause *outside* the loop, so it aborts the iteration and the
set accumulated so far is returned. -/
def getPermsGo (store : String → RoleLookup) : List String → Finset String → Finset String
  | [], acc => acc
  | r :: rest, acc =>
    match store r with
    | .clientError => acc
    | .notFound => getPermsGo store rest acc
    | .found ps => getPermsGo store rest (acc ∪ ps.toFinset)

/-- Embeds `get_permissions_for_roles` (`auth-cli/main.py` and
`auth-api/auth_cli.py`, identical in both), with the `roles` table abstracted
as `store`.  The Python function returns `list(all_permissions)` in arbitrary
set order; the embedding returns the set itself. -/
def get_permissions_for_roles (store : String → RoleLookup) (role_names : List String) :
    Finset String :=
  getPermsGo store role_names ∅

/-- The structured failures `analisar_partiql` reports by printing a message
and returning `None`, one constructor per distinct message. -/
inductive PartiQLErr
  | emptyTokens
  | selectNoFrom
  | insertNoInto
  | updateNoTable
  | deleteNoFrom
  | unsupported (tok : String)
deriving DecidableEq

/-- Outcome of `analisar_partiql`: a parsed `(action, table)` pair, a printed
error with `None` returned, or an *uncaught* `IndexError` escaping the
function (the `except` clauses of the SELECT/INSERT/DELETE branches catch
only `ValueError`). -/
inductive PartiQLOutcome
  | parsed (action table : String)
  | err (e : PartiQLErr)
  | indexError
deriving DecidableEq

/-- Python `token.strip(chr 34).strip(chr 39)`: strip double quotes, then
single quotes, from both ends. -/
def stripQuotes (s : String) : String := pyStripChar squoteChar (pyStripChar '"' s)

/-- Embeds `analisar_partiql` (`auth-api/auth_cli.py`): upper-case the stripped
query, split on whitespace, dispatch on the leading keyword.  The table token
index `tokens[i+1]` is unguarded in the SELECT/INSERT/DELETE branches and
raises `IndexError` when the companion keyword is the last token; only the
SELECT branch lower-cases the extracted table name. -/
def analisar_partiql (query : String) : PartiQLOutcome :=
  let query_upper := pyUpper (pyStrip query)
  let tokens := reSplitWs query_upper
  if tokens.isEmpty then .err .emptyTokens
  else
    let action_token := tokens.headD ""
    if action_token = "SELECT" then
      match tokens.findIdx? (· = "FROM") with
      | none => .err .selectNoFrom
      | some i =>
        match tokens[i + 1]? with
        | none => .indexError
        | some t => .parsed "read" (pyLower (stripQuotes t))
    else if action_token = "INSERT" then
      match tokens.findIdx? (· = "INTO") with
      | none => .err .insertNoInto
      | some i =>
        match tokens[i + 1]? with
        | none => .indexError
        | some t => .parsed "write" (stripQuotes t)
    else if action_token = "UPDATE" then
      match tokens[1]? with
      | none => .err .updateNoTable
      | some t => .parsed "update" (stripQuotes t)
    else if action_token = "DELETE" then
      match tokens.findIdx? (· = "FROM") with
      | none => .err .deleteNoFrom
      | some i =>
        match tokens[i + 1]? with
        | none => .indexError
        | some t => .parsed "delete" (stripQuotes t)
    else .err (.unsupported action_token)

/-- Embeds `AWS_CLI_ACTION_MAP` (`auth-cli/main.py`): the closed verb-to-action
dictionary; `none` models a missing key. -/
def awsCliActionMap (v : String) : Option String :=
  if v = "get-item" then some "read"
  else if v = "query" then some "read"
  else if v = "scan" then some "read"
  else if v = "put-item" then some "write"
  else if v = "update-item" then some "update"
  else if v = "delete-item" then some "delete"
  else if v = "batch-get-item" then some "read"
  else if v = "batch-write-item" then some "write"
  else none

/-- Python `str.capitalize()`: first character upper-cased, the rest
lower-cased. -/
def pyCapitalize (s : String) : String :=
  match s.data with
  | [] => ""
  | c :: cs => ⟨c.toUpper :: cs.map Char.toLower⟩

/-- Embeds `to_camel_case` (`auth-cli/main.py`): split on underscores and capitalize
every component, e.g. `table_name ↦ TableName`. -/
def to_camel_case (snake_str : String) : String :=
  match splitOnChar '_' snake_str with
  | [] => ""
  | c :: cs => pyCapitalize c ++ String.join (cs.map pyCapitalize)

/-- The flag-token to argument-map key conversion of the verb parser:
`token.lstrip(chr 45 * 2).replace(chr 45, chr 95)` followed by
`to_camel_case`.  Python `lstrip` with a one-character set removes every
leading occurrence of that character. -/
def camelKey (token : String) : String :=
  to_camel_case (replaceChar '-' '_' ⟨token.data.dropWhile (· = '-')⟩)

/-- Python `dict` assignment `d[k] = v` on an association list with unique
keys: replace the value in place if the key exists, else append. -/
def insertArg : List (String × String) → String → String → List (String × String)
  | [], k, v => [(k, v)]
  | (k', v') :: rest, k, v =>
    if k' = k then (k, v) :: rest else (k', v') :: insertArg rest k v

/-- Python `dict.get(k)` on the association list. -/
def lookupArg (k : String) (args : List (String × String)) : Option String :=
  (args.find? (fun p => p.1 = k)).map Prod.snd

/-- The `while` loop of `analisar_aws_cli_comando` over the tokens after the
verb: a token starting with `--` together with the *next* token (whatever it
is) forms a flag/value pair inserted into the argument map; a flag with no
following token is dropped; any other token is skipped.  The source decodes
the values of four payload flags as JSON with a raw-string fallback; both
branches store a value under the same key, so the embedding keeps the raw
string. -/
def parseFlags : List String → List (String × String) → List (String × String)
  | [], args => args
  | [_], args => args
  | t :: v :: rest, args =>
    if startsWithDashDash t then parseFlags rest (insertArg args (camelKey t) v)
    else parseFlags (v :: rest) args

/-- The flag/value pairs the `while` loop of `analisar_aws_cli_comando`
inserts, in insertion order. -/
def flagPairs : List String → List (String × String)
  | [] => []
  | [_] => []
  | t :: v :: rest =>
    if startsWithDashDash t then (camelKey t, v) :: flagPairs rest
    else flagPairs (v :: rest)

/-- The structured failures of `analisar_aws_cli_comando`, one constructor
per distinct printed message paired with `return None`. -/
inductive AwsCliErr
  | badCommand
  | unsupportedAction (verb : String)
  | missingResource
deriving DecidableEq

/-- Embeds `analisar_aws_cli_comando` (`auth-cli/main.py`): tokenize with
`split_cli_command` after `str.strip()`, require the `dynamodb` namespace and
at least three tokens, map the verb through `AWS_CLI_ACTION_MAP`, parse the
flag/value pairs, and require a non-empty `TableName` argument (`if not
table_name` rejects both an absent key and an empty string).  On success
returns `(rbac_action, table_name.lower(), args_dict)`. -/
def analisar_aws_cli_comando (command : String) :
    Except AwsCliErr (String × String × List (String × String)) :=
  let command_tokens := split_cli_command (pyStrip command)
  if command_tokens.length < 3 ∨ pyLower (command_tokens.headD "") ≠ "dynamodb" then
    .error .badCommand
  else
    let cli_action := pyLower (command_tokens.getD 1 "")
    match awsCliActionMap cli_action with
    | none => .error (.unsupportedAction cli_action)
    | some rbac_action =>
      let args_dict := parseFlags (command_tokens.drop 2) []
      match lookupArg "TableName" args_dict with
      | none => .error .missingResource
      | some table_name =>
        if table_name = "" then .error .missingResource
        else .ok (rbac_action, pyLower table_name, args_dict)

/-- Role store used to exhibit the mid-iteration `ClientError` behavior of
`get_permissions_for_roles`: the lookup for `broken` raises, the other two
roles hold one permission each. -/
def c2Store : String → RoleLookup := fun r =>
  if r = "admin" then .found ["customer:read"]
  else if r = "broken" then .clientError
  else if r = "ops" then .found ["customer:write"]
  else .notFound

/-- Role store for the resolver witnesses: two overlapping permission
lists. -/
def c5Store : String → RoleLookup := fun r =>
  if r = "r1" then .found ["customer:read", "loan:read"]
  else if r = "r2" then .found ["loan:read"]
  else .notFound

/-- Role store for the dangling-role witness: one recognized role, everything
else unknown. -/
def c6Store : String → RoleLookup := fun r =>
  if r = "reader" then .found ["customer:read"] else .notFound

lemma contains_iff_mem {l : List String} {a : String} : l.contains a = true ↔ a ∈ l :=
  List.elem_iff

lemma getPermsGo_ok (store : String → RoleLookup) :
    ∀ (roles : List String) (acc : Finset String),
      (∀ r ∈ roles, store r ≠ RoleLookup.clientError) →
      getPermsGo store roles acc = acc ∪ roles.foldr (fun r s => permsOf (store r) ∪ s) ∅ := by
  intro roles
  induction roles with
  | nil => intro acc _; simp [getPermsGo]
  | cons a t ih =>
    intro acc h
    have ha : store a ≠ RoleLookup.clientError := h a (by simp)
    have ht : ∀ r ∈ t, store r ≠ RoleLookup.clientError := fun r hr => h r (by simp [hr])
    cases hsa : store a with
    | clientError => exact absurd hsa ha
    | notFound =>
      have hstep : getPermsGo store (a :: t) acc = getPermsGo store t acc := by
        simp [getPermsGo, hsa]
      rw [hstep, ih acc ht, List.foldr_cons, hsa]
      simp [permsOf]
    | found ps =>
      have hstep : getPermsGo store (a :: t) acc = getPermsGo store t (acc ∪ ps.toFinset) := by
        simp [getPermsGo, hsa]
      rw [hstep, ih (acc ∪ ps.toFinset) ht, List.foldr_cons, hsa]
      simp [permsOf, Finset.union_assoc]

lemma foldrUnion_eq_biUnion (f : String → Finset String) :
    ∀ l : List String, l.foldr (fun r s => f r ∪ s) ∅ = l.toFinset.biUnion f := by
  intro l
  induction l with
  | nil => simp
  | cons a t ih => simp [List.toFinset_cons, Finset.biUnion_insert, ih]

lemma resolve_eq_biUnion (store : String → RoleLookup) (roles : List String)
    (h : ∀ r ∈ roles, store r ≠ RoleLookup.clientError) :
    get_permissions_for_roles store roles
      = roles.toFinset.biUnion (fun r => permsOf (store r)) := by
  unfold get_permissions_for_roles
  rw [getPermsGo_ok store roles ∅ h, foldrUnion_eq_biUnion, Finset.empty_union]

/-- C1 (counterexample): the claimed three-clause Allow-iff fails on the code
at concrete inputs.  `verificar_permissao_cli` denies `("CUSTOMER", "read")`
against `{"CUSTOMER:read"}` (the exact-match clause lower-cases the resource
before comparing), and `check_permission` denies `("customer", "read")`
against `{"customer:*"}` (the HTTP API has no resource-wildcard clause). -/
theorem c1_allow_iff_counterexample :
    (¬ (verificar_permissao_cli ["CUSTOMER:read"] "CUSTOMER" "read" = true ↔
        ("*" ∈ (["CUSTOMER:read"] : List String) ∨
         ("CUSTOMER" ++ ":" ++ "read") ∈ (["CUSTOMER:read"] : List String) ∨
         ("CUSTOMER" ++ ":*") ∈ (["CUSTOMER:read"] : List String)))) ∧
    (¬ (check_permission (fun _ => ApiRoleLookup.found ⟨some (.list ["customer:*"])⟩)
            ⟨"u", "role1"⟩ "customer" "read" = ApiDecision.allowed ↔
        ("*" ∈ (["customer:*"] : List String) ∨
         ("customer" ++ ":" ++ "read") ∈ (["customer:*"] : List String) ∨
         ("customer" ++ ":*") ∈ (["customer:*"] : List String)))) := by
  decide

/-- C1 (amended): `verificar_permissao_cli` allows iff the global wildcard is
present, or the exact permission with the *lower-cased* resource is present,
or the resource wildcard with the *raw* resource is present;
`check_permission` allows iff the global wildcard or the exact raw
`resource:action` string is present (no resource-wildcard clause).  Matching
is exact string membership, so `{"customer:*"}` never matches resource
`"customers"`: both functions deny that request. -/
theorem c1_allow_iff_amended :
    (∀ (P : List String) (r a : String),
        verificar_permissao_cli P r a = true ↔
          ("*" ∈ P ∨ (pyLower r ++ ":" ++ a) ∈ P ∨ (r ++ ":*") ∈ P)) ∧
    (∀ (P : List String) (u : UserToken) (r a : String),
        check_permission (fun _ => ApiRoleLookup.found ⟨some (.list P)⟩) u r a
            = ApiDecision.allowed ↔ ("*" ∈ P ∨ (r ++ ":" ++ a) ∈ P)) ∧
    verificar_permissao_cli ["customer:*"] "customers" "read" = false ∧
    check_permission (fun _ => ApiRoleLookup.found ⟨some (.list ["customer:*"])⟩)
        ⟨"u", "role1"⟩ "customers" "read" = ApiDecision.forbiddenMissing "customers:read" := by
  refine ⟨?_, ?_, by decide, by decide⟩
  · intro P r a
    unfold verificar_permissao_cli
    split_ifs with h1 h2 <;>
      simp_all [contains_iff_mem]
  · intro P u r a
    have hred : check_permission (fun _ => ApiRoleLookup.found ⟨some (.list P)⟩) u r a
        = if P.contains "*" || P.contains (r ++ ":" ++ a) then ApiDecision.allowed
          else ApiDecision.forbiddenMissing (r ++ ":" ++ a) := rfl
    rw [hred]
    split_ifs with h1
    · simp only [Bool.or_eq_true, contains_iff_mem] at h1
      simpa using h1
    · have hno : ¬ ("*" ∈ P ∨ (r ++ ":" ++ a) ∈ P) := by
        simpa [Bool.or_eq_true, contains_iff_mem] using h1
      simp [hno]

/-- C2: when the role store raises a transient `ClientError` for one role
mid-iteration, `get_permissions_for_roles` catches it outside the loop and
returns the permissions accumulated from the roles fetched *before* the
failure, as a normal success value: the `ops` role after the failing `broken`
role is never fetched and no failure is propagated. -/
theorem c2_partial_set_on_transient_failure :
    get_permissions_for_roles c2Store ["admin", "broken", "ops"] = {"customer:read"} ∧
    get_permissions_for_roles c2Store ["admin", "ops"]
      = {"customer:read", "customer:write"} := by
  constructor <;> decide

/-- C3: the resource-wildcard clause of `verificar_permissao_cli` compares
the *raw* resource name, not the lower-cased one, so the decision for
`"Customer"` differs from the decision for its lower-casing `"customer"`
against the permission set `{"customer:*"}`. -/
theorem c3_wildcard_not_case_normalized :
    verificar_permissao_cli ["customer:*"] "Customer" "read" = false ∧
    verificar_permissao_cli ["customer:*"] "customer" "read" = true ∧
    pyLower "Customer" = "customer" := by
  decide

/-- C5: when no role lookup reports a transient failure, the resolved
permission set is the set union of the permission lists fetched for each
role; hence any two role lists with the same permission content resolve to
the same set. -/
theorem c5_resolution_is_set_union (store : String → RoleLookup)
    (roles1 roles2 : List String)
    (h1 : ∀ r ∈ roles1, store r ≠ RoleLookup.clientError)
    (h2 : ∀ r ∈ roles2, store r ≠ RoleLookup.clientError) :
    get_permissions_for_roles store roles1
        = roles1.toFinset.biUnion (fun r => permsOf (store r)) ∧
    (roles1.toFinset.biUnion (fun r => permsOf (store r))
        = roles2.toFinset.biUnion (fun r => permsOf (store r)) →
      get_permissions_for_roles store roles1 = get_permissions_for_roles store roles2) := by
  refine ⟨resolve_eq_biUnion store roles1 h1, fun hc => ?_⟩
  rw [resolve_eq_biUnion store roles1 h1, resolve_eq_biUnion store roles2 h2]
  exact hc

/-- C5 witness: two role lists with identical permission content, resolving
to the same set, at a concrete store. -/
theorem c5_resolution_is_set_union_witness :
    (∀ r ∈ (["r1", "r2"] : List String), c5Store r ≠ RoleLookup.clientError) ∧
    (get_permissions_for_roles c5Store ["r1", "r2"]
        = (["r1", "r2"] : List String).toFinset.biUnion (fun r => permsOf (c5Store r)) ∧
      ((["r1", "r2"] : List String).toFinset.biUnion (fun r => permsOf (c5Store r))
          = (["r2", "r1"] : List String).toFinset.biUnion (fun r => permsOf (c5Store r)) →
        get_permissions_for_roles c5Store ["r1", "r2"]
          = get_permissions_for_roles c5Store ["r2", "r1"])) :=
  ⟨by decide,
   c5_resolution_is_set_union c5Store ["r1", "r2"] ["r2", "r1"] (by decide) (by decide)⟩

/-- C6: a role name the store does not recognize contributes no permissions
and does not fail the resolution: with no transient failures, the resolved
set equals the union over the recognized (found) roles only. -/
theorem c6_dangling_role_contributes_nothing (store : String → RoleLookup)
    (roles : List String) (bad : String)
    (_hmem : bad ∈ roles) (_hbad : store bad = RoleLookup.notFound)
    (hok : ∀ r ∈ roles, store r ≠ RoleLookup.clientError) :
    get_permissions_for_roles store roles
      = (roles.filter (fun r => isFound (store r))).toFinset.biUnion
          (fun r => permsOf (store r)) := by
  rw [resolve_eq_biUnion store roles hok]
  ext x
  simp only [Finset.mem_biUnion, List.mem_toFinset, List.mem_filter]
  constructor
  · rintro ⟨r, hr, hx⟩
    refine ⟨r, ⟨hr, ?_⟩, hx⟩
    cases hsr : store r with
    | found ps => simp [isFound]
    | notFound => rw [hsr] at hx; simp [permsOf] at hx
    | clientError => rw [hsr] at hx; simp [permsOf] at hx
  · rintro ⟨r, ⟨hr, _⟩, hx⟩
    exact ⟨r, hr, hx⟩

/-- C6 witness: a concrete role list containing the unrecognized name
`ghost`; resolution returns the reader permissions only. -/
theorem c6_dangling_role_witness :
    ("ghost" ∈ (["reader", "ghost"] : List String) ∧
     c6Store "ghost" = RoleLookup.notFound ∧
     (∀ r ∈ (["reader", "ghost"] : List String), c6Store r ≠ RoleLookup.clientError)) ∧
    get_permissions_for_roles c6Store ["reader", "ghost"]
      = ((["reader", "ghost"] : List String).filter
            (fun r => isFound (c6Store r))).toFinset.biUnion
          (fun r => permsOf (c6Store r)) :=
  ⟨⟨by decide, by decide, by decide⟩,
   c6_dangling_role_contributes_nothing c6Store ["reader", "ghost"] "ghost"
     (by decide) (by decide) (by decide)⟩

/-- C4: the statement-dialect parser does not lower-case the resource for
UPDATE, INSERT, or DELETE: the whole query is upper-cased before
tokenization and only the SELECT branch applies `.lower()` to the extracted
table token, so `UPDATE customer SET x=1` parses to resource `"CUSTOMER"`,
not the claimed `"customer"` (the verb-dialect parser, by contrast, does
lower-case: see the `.lower()` on its table name). -/
theorem c4_statement_resource_not_lowercased :
    analisar_partiql "UPDATE customer SET x=1" = PartiQLOutcome.parsed "update" "CUSTOMER" ∧
    analisar_partiql "INSERT INTO customer VALUE 1" = PartiQLOutcome.parsed "write" "CUSTOMER" ∧
    analisar_partiql "DELETE FROM customer WHERE x=1"
      = PartiQLOutcome.parsed "delete" "CUSTOMER" ∧
    analisar_partiql "SELECT * FROM customer WHERE id=1"
      = PartiQLOutcome.parsed "read" "customer" ∧
    "CUSTOMER" ≠ pyLower "CUSTOMER" := by
  decide

/-- C8: the statement-dialect parser is not total in the sense of returning
a value: when the companion keyword `FROM`/`INTO` is the last token, the
unguarded `tokens[from_index + 1]` raises an `IndexError` that the
`except ValueError` clauses do not catch, escaping the parser (and, in the
CLI main loop, killing the process). -/
theorem c8_statement_parser_uncaught_index_error :
    analisar_partiql "SELECT * FROM" = PartiQLOutcome.indexError ∧
    analisar_partiql "INSERT INTO" = PartiQLOutcome.indexError ∧
    analisar_partiql "DELETE FROM" = PartiQLOutcome.indexError := by
  decide

/-- C9: the HTTP API's decision depends only on the first element of the
token's role list: `get_current_user` keeps `role_data[0]` and discards the
rest, and `check_permission` reads only that single role name, so two tokens
whose role lists share the same first element receive the same decision for
every table and action, whatever extra roles and usernames they carry. -/
theorem c9_decision_depends_on_first_role_only (store : String → ApiRoleLookup)
    (sub1 sub2 : String) (r1 r2 : List String) (table_name action : String)
    (h : r1.head? = r2.head?) :
    api_decision store ⟨some sub1, RoleClaim.list r1⟩ table_name action
      = api_decision store ⟨some sub2, RoleClaim.list r2⟩ table_name action := by
  cases r1 with
  | nil =>
    cases r2 with
    | nil => rfl
    | cons b t2 => simp at h
  | cons a t1 =>
    cases r2 with
    | nil => simp at h
    | cons b t2 =>
      simp only [List.head?_cons, Option.some.injEq] at h
      subst h
      rfl

/-- C9 witness: two tokens with first role `admin`, one carrying an extra
role and a different username, get the same decision. -/
theorem c9_decision_first_role_witness :
    ((["admin", "extra"] : List String).head? = (["admin"] : List String).head?) ∧
    api_decision (fun _ => ApiRoleLookup.notFound)
        ⟨some "u1", RoleClaim.list ["admin", "extra"]⟩ "customer" "read"
      = api_decision (fun _ => ApiRoleLookup.notFound)
        ⟨some "u2", RoleClaim.list ["admin"]⟩ "customer" "read" :=
  ⟨rfl, c9_decision_depends_on_first_role_only (fun _ => ApiRoleLookup.notFound)
    "u1" "u2" ["admin", "extra"] ["admin"] "customer" "read" rfl⟩

lemma analisar_aws_reduce (cmd act : String)
    (hlen : ¬ (split_cli_command (pyStrip cmd)).length < 3)
    (hns : pyLower ((split_cli_command (pyStrip cmd)).headD "") = "dynamodb")
    (hverb : awsCliActionMap (pyLower ((split_cli_command (pyStrip cmd)).getD 1 ""))
        = some act) :
    analisar_aws_cli_comando cmd
      = match lookupArg "TableName"
            (parseFlags ((split_cli_command (pyStrip cmd)).drop 2) []) with
        | none => Except.error AwsCliErr.missingResource
        | some table_name =>
          if table_name = "" then Except.error AwsCliErr.missingResource
          else Except.ok (act, pyLower table_name,
                 parseFlags ((split_cli_command (pyStrip cmd)).drop 2) []) := by
  have hcond : ¬ ((split_cli_command (pyStrip cmd)).length < 3 ∨
      pyLower ((split_cli_command (pyStrip cmd)).headD "") ≠ "dynamodb") :=
    not_or.mpr ⟨hlen, fun hne => hne hns⟩
  simp only [analisar_aws_cli_comando]
  rw [if_neg hcond, hverb]

/-- C7: a verb-dialect command (valid `dynamodb` namespace and recognized
verb) parses successfully iff the argument map built from its flag tokens
holds a non-empty `TableName` value; when no table-name flag contributed an
entry, the parser reports the missing-resource error and produces no parsed
command. -/
theorem c7_missing_table_flag_errors (cmd act : String)
    (hlen : ¬ (split_cli_command (pyStrip cmd)).length < 3)
    (hns : pyLower ((split_cli_command (pyStrip cmd)).headD "") = "dynamodb")
    (hverb : awsCliActionMap (pyLower ((split_cli_command (pyStrip cmd)).getD 1 ""))
        = some act) :
    (lookupArg "TableName" (parseFlags ((split_cli_command (pyStrip cmd)).drop 2) []) = none →
        analisar_aws_cli_comando cmd = Except.error AwsCliErr.missingResource) ∧
    (∀ res, analisar_aws_cli_comando cmd = Except.ok res →
        ∃ t, lookupArg "TableName" (parseFlags ((split_cli_command (pyStrip cmd)).drop 2) [])
                = some t ∧ t ≠ "") := by
  constructor
  · intro hnone
    rw [analisar_aws_reduce cmd act hlen hns hverb, hnone]
  · intro res hres
    rw [analisar_aws_reduce cmd act hlen hns hverb] at hres
    cases hl : lookupArg "TableName"
        (parseFlags ((split_cli_command (pyStrip cmd)).drop 2) []) with
    | none => rw [hl] at hres; simp at hres
    | some t =>
      rw [hl] at hres
      by_cases ht : t = ""
      · simp [ht] at hres
      · exact ⟨t, rfl, ht⟩

/-- C7 witness: `dynamodb get-item --key x` carries no table-name flag; the
parser reports the missing-resource error. -/
theorem c7_missing_table_flag_witness :
    (¬ (split_cli_command (pyStrip "dynamodb get-item --key x")).length < 3 ∧
     pyLower ((split_cli_command (pyStrip "dynamodb get-item --key x")).headD "")
        = "dynamodb" ∧
     awsCliActionMap
        (pyLower ((split_cli_command (pyStrip "dynamodb get-item --key x")).getD 1 ""))
        = some "read") ∧
    ((lookupArg "TableName"
          (parseFlags ((split_cli_command (pyStrip "dynamodb get-item --key x")).drop 2) [])
          = none →
        analisar_aws_cli_comando "dynamodb get-item --key x"
          = Except.error AwsCliErr.missingResource) ∧
     (∀ res, analisar_aws_cli_comando "dynamodb get-item --key x" = Except.ok res →
        ∃ t, lookupArg "TableName"
               (parseFlags ((split_cli_command (pyStrip "dynamodb get-item --key x")).drop 2) [])
               = some t ∧ t ≠ "")) :=
  ⟨⟨by decide, by decide, by decide⟩,
   c7_missing_table_flag_errors "dynamodb get-item --key x" "read"
     (by decide) (by decide) (by decide)⟩

lemma lookupArg_cons_pos (k : String) (hd : String × String) (tl : List (String × String))
    (h : hd.1 = k) : lookupArg k (hd :: tl) = some hd.2 := by
  unfold lookupArg
  rw [List.find?_cons_of_pos _ (by simp [h])]
  rfl

lemma lookupArg_cons_neg (k : String) (hd : String × String) (tl : List (String × String))
    (h : ¬ hd.1 = k) : lookupArg k (hd :: tl) = lookupArg k tl := by
  unfold lookupArg
  rw [List.find?_cons_of_neg _ (by simp [h])]

lemma lookupArg_insertArg (k k' v : String) :
    ∀ args, lookupArg k (insertArg args k' v) = if k' = k then some v else lookupArg k args := by
  intro args
  induction args with
  | nil =>
    by_cases h : k' = k
    · rw [if_pos h]
      exact lookupArg_cons_pos k (k', v) [] h
    · rw [if_neg h]
      have hins : insertArg [] k' v = [(k', v)] := rfl
      rw [hins, lookupArg_cons_neg k (k', v) [] h]
  | cons hd tl ih =>
    by_cases h2 : hd.1 = k'
    · have hins : insertArg (hd :: tl) k' v = (k', v) :: tl := by
        simp [insertArg, h2]
      rw [hins]
      by_cases h : k' = k
      · rw [if_pos h]
        exact lookupArg_cons_pos k (k', v) tl h
      · rw [if_neg h, lookupArg_cons_neg k (k', v) tl h,
          lookupArg_cons_neg k hd tl (by rw [h2]; exact h)]
    · have hins : insertArg (hd :: tl) k' v = hd :: insertArg tl k' v := by
        simp [insertArg, h2]
      rw [hins]
      by_cases h3 : hd.1 = k
      · have hk : ¬ k' = k := fun he => h2 (h3.trans he.symm)
        rw [if_neg hk, lookupArg_cons_pos k hd _ h3, lookupArg_cons_pos k hd tl h3]
      · rw [lookupArg_cons_neg k hd _ h3, ih]
        by_cases h : k' = k
        · rw [if_pos h, if_pos h]
        · rw [if_neg h, if_neg h, lookupArg_cons_neg k hd tl h3]

lemma lookupArg_foldl (k : String) :
    ∀ (ps : List (String × String)) (args : List (String × String)),
      lookupArg k (ps.foldl (fun a p => insertArg a p.1 p.2) args)
        = ((ps.reverse.find? (fun p => p.1 = k)).map Prod.snd).or (lookupArg k args) := by
  intro ps
  induction ps with
  | nil => intro args; simp [Option.or]
  | cons a t ih =>
    intro args
    rw [List.foldl_cons, ih (insertArg args a.1 a.2), List.reverse_cons, List.find?_append,
      lookupArg_insertArg]
    cases hf : t.reverse.find? (fun p => p.1 = k) with
    | some q => simp [Option.or]
    | none =>
      by_cases h : a.1 = k <;> simp [List.find?, Option.or, h]

lemma parseFlags_eq_foldl (toks : List String) (args : List (String × String)) :
    parseFlags toks args = (flagPairs toks).foldl (fun a p => insertArg a p.1 p.2) args := by
  induction toks, args using parseFlags.induct with
  | case1 args => rfl
  | case2 t args => rfl
  | case3 t v rest args h ih => simp [parseFlags, flagPairs, h, ih]
  | case4 t v rest args h ih => simp [parseFlags, flagPairs, h, ih]

/-- C10: in the verb parser's flag loop, the argument-map entry for a key is
the value of the *last* flag/value pair carrying that key, so a repeated
flag (the table-name flag included) is overwritten by its last occurrence;
and a trailing flag with no following token is silently dropped, as the two
concrete commands show (the second parses successfully with no `Key`
entry). -/
theorem c10_last_flag_occurrence_wins :
    (∀ (toks : List String) (k : String),
        lookupArg k (parseFlags toks [])
          = ((flagPairs toks).reverse.find? (fun p => p.1 = k)).map Prod.snd) ∧
    analisar_aws_cli_comando "dynamodb get-item --table-name alpha --table-name beta"
      = Except.ok ("read", "beta", [("TableName", "beta")]) ∧
    analisar_aws_cli_comando "dynamodb get-item --table-name alpha --key"
      = Except.ok ("read", "alpha", [("TableName", "alpha")]) := by
  refine ⟨?_, rfl, rfl⟩
  intro toks k
  rw [parseFlags_eq_foldl, lookupArg_foldl]
  cases (flagPairs toks).reverse.find? (fun p => p.1 = k) <;> rfl
